import Mathlib

/-!
Verification of the timetable-to-calendar translation implemented in
`timetable_parser.py` (main variant) and `generate_ics.py` (older variant)
of the nottingham-timetable repository.

Dates are modelled as proleptic-Gregorian ordinal day numbers (Rata Die,
the representation behind Python's `date.toordinal`, day 1 = 0001-01-01,
a Monday).  Python exceptions are modelled with `Except ParseError`.
String-processing primitives used by the code (`str.strip`, `str.split`,
`int`, `datetime.strptime` with format percent-H colon percent-M) are
re-implemented structurally over `List Char` so that all definitions
reduce inside the kernel.
-/

namespace UNMC

/-- Characters stripped by Python's `str.strip()` (ASCII whitespace). -/
def isPySpace (c : Char) : Bool :=
  c = ' ' || c = '\t' || c = '\n' || c = '\r' || c = '\x0b' || c = '\x0c'

/-- Model of Python `str.strip()`. -/
def pyStrip (s : String) : String :=
  String.mk (((s.data.dropWhile isPySpace).reverse.dropWhile isPySpace).reverse)

/-- Split a character list on a separator, Python `str.split(sep)` style:
the empty string yields one empty piece. -/
def splitOnChar (sep : Char) : List Char → List (List Char)
  | [] => [[]]
  | c :: rest =>
    if c = sep then [] :: splitOnChar sep rest
    else
      match splitOnChar sep rest with
      | [] => [[c]]
      | g :: gs => (c :: g) :: gs

/-- Model of Python `str.split(sep)` for a one-character separator. -/
def pySplit (sep : Char) (s : String) : List String :=
  (splitOnChar sep s.data).map String.mk

/-- Model of Python `c in s` membership test for a single character. -/
def pyContains (c : Char) (s : String) : Bool :=
  s.data.contains c

/-- Read a nonempty all-digit character list as a number, accumulator form. -/
def readDigitsAux : Nat → List Char → Option Nat
  | acc, [] => some acc
  | acc, c :: rest =>
    if c.isDigit then readDigitsAux (acc * 10 + (c.toNat - 48)) rest else none

/-- Read a nonempty all-digit character list as a number. -/
def readDigits (cs : List Char) : Option Nat :=
  if cs.isEmpty then none else readDigitsAux 0 cs

/-- Model of Python `int(s)` on ASCII decimal strings: surrounding
whitespace, an optional sign, then digits. -/
def pyInt (s : String) : Option Int :=
  match (pyStrip s).data with
  | '-' :: rest => (readDigits rest).map (fun n => -(n : Int))
  | '+' :: rest => (readDigits rest).map (fun n => (n : Int))
  | cs => (readDigits cs).map (fun n => (n : Int))

/-- A time of day, the result of `datetime.strptime(s, time format).time()`. -/
structure Time where
  hour : Nat
  minute : Nat
  deriving DecidableEq, Repr, Inhabited

/-- Model of `parse_time` (both variants): `strptime` with format
percent-H colon percent-M — one or two digit hour at most 23, colon,
one or two digit minute at most 59, nothing else. -/
def parse_time (s : String) : Option Time :=
  match pySplit ':' s with
  | [hs, ms] =>
    if 1 ≤ hs.data.length && hs.data.length ≤ 2
        && 1 ≤ ms.data.length && ms.data.length ≤ 2 then
      match readDigits hs.data, readDigits ms.data with
      | some h, some m => if h ≤ 23 && m ≤ 59 then some ⟨h, m⟩ else none
      | _, _ => none
    else none
  | _ => none

/-- Model of `get_date_for_week`: `academic_year_start + timedelta(weeks=week_num-1)`
on ordinal day numbers. -/
def get_date_for_week (week_num : Int) (academic_year_start : Int) : Int :=
  academic_year_start + 7 * (week_num - 1)

/-- Python exceptions raised while parsing a timetable row or table.
`invalidRowFormat` models `ValueError("Invalid timetable format: Missing columns in row")`;
`malformedTime` models the `ValueError` from `strptime`; `malformedInt`
the `ValueError` from `int`; `unpackMismatch` the `ValueError` from
unpacking `split` output into `start, end`. -/
inductive ParseError where
  | invalidRowFormat
  | malformedTime (s : String)
  | malformedInt (s : String)
  | unpackMismatch (s : String)
  deriving DecidableEq, Repr, Inhabited

instance {ε α : Type} [DecidableEq ε] [DecidableEq α] :
    DecidableEq (Except ε α) := fun x y =>
  match x, y with
  | .ok a, .ok b => decidable_of_iff (a = b) (by simp)
  | .error a, .error b => decidable_of_iff (a = b) (by simp)
  | .ok _, .error _ => isFalse (by simp)
  | .error _, .ok _ => isFalse (by simp)

/-- A timezone-annotated date and time, the result of
`tz.localize(datetime.combine(date, time))`. -/
structure ZonedDT where
  date : Int
  time : Time
  tz : String
  deriving DecidableEq, Repr, Inhabited

/-- One VEVENT as assembled by `parse_table_row`. -/
structure CalendarEvent where
  summary : String
  dtstart : ZonedDT
  dtend : ZonedDT
  location : String
  description : String
  rrule_freq : String
  rrule_interval : Nat
  rrule_count : Int
  rrule_byday : String
  deriving DecidableEq, Repr, Inhabited

/-- The hardcoded institution timezone, `pytz.timezone('Asia/Kuala_Lumpur')`. -/
def tzName : String := "Asia/Kuala_Lumpur"

/-- `day_abbr = ['MO', 'TU', 'WE', 'TH', 'FR']`. -/
def day_abbr : List String := ["MO", "TU", "WE", "TH", "FR"]

/-- One piece of the comma-separated week text: `start, end = map(int,
week_range.strip().split('-'))` when a dash is present, else
`start = end = int(week_range.strip())`. -/
def parseWeekPiece (piece : String) : Except ParseError (Int × Int) :=
  if pyContains '-' piece then
    match pySplit '-' (pyStrip piece) with
    | [a, b] =>
      match pyInt a, pyInt b with
      | some s, some e => .ok (s, e)
      | _, _ => .error (.malformedInt piece)
    | _ => .error (.unpackMismatch piece)
  else
    match pyInt (pyStrip piece) with
    | some n => .ok (n, n)
    | none => .error (.malformedInt piece)

/-- The loop body of `parse_table_row` for one week-range piece: parse the
piece, build the anchor date, parse both times, assemble the event. -/
def expandPiece (piece : String) (day_offset : Nat) (academic_year_start : Int)
    (start_time end_time summary location description : String) :
    Except ParseError CalendarEvent :=
  match parseWeekPiece piece with
  | .error e => .error e
  | .ok (s, e) =>
    let event_date := get_date_for_week s academic_year_start + day_offset
    match parse_time start_time with
    | none => .error (.malformedTime start_time)
    | some st =>
      match parse_time end_time with
      | none => .error (.malformedTime end_time)
      | some et =>
        .ok { summary := summary
              dtstart := { date := event_date, time := st, tz := tzName }
              dtend := { date := event_date, time := et, tz := tzName }
              location := location
              description := description
              rrule_freq := "WEEKLY"
              rrule_interval := 1
              rrule_count := e - s + 1
              rrule_byday := day_abbr.getD day_offset "" }

/-- The `for week_range in week_ranges` loop of `parse_table_row`: events are
produced in order, the first exception aborts the whole row. -/
def expandRanges (day_offset : Nat) (academic_year_start : Int)
    (start_time end_time summary location description : String) :
    List String → Except ParseError (List CalendarEvent)
  | [] => .ok []
  | p :: rest =>
    match expandPiece p day_offset academic_year_start
        start_time end_time summary location description with
    | .error e => .error e
    | .ok ev =>
      match expandRanges day_offset academic_year_start
          start_time end_time summary location description rest with
      | .error e => .error e
      | .ok evs => .ok (ev :: evs)

/-- The guard `if class_filter and not class_filter(module_code, module_name,
event_type)` of `parse_table_row`. -/
def filterRejects (class_filter : Option (String → String → String → Bool))
    (module_code module_name event_type : String) : Bool :=
  match class_filter with
  | some f => !(f module_code module_name event_type)
  | none => false

/-- Model of `parse_table_row` (timetable_parser.py): extract the cell
texts, consult the filter, then expand every comma-separated week range
into one recurring event. -/
def parse_table_row (cells : List String) (day_offset : Nat)
    (academic_year_start : Int)
    (class_filter : Option (String → String → String → Bool)) :
    Except ParseError (List CalendarEvent) :=
  let module_code := pyStrip (cells.getD 0 "")
  let module_name := pyStrip (cells.getD 1 "")
  let event_type := pyStrip (cells.getD 2 "")
  let size := pyStrip (cells.getD 3 "")
  let start_time := pyStrip (cells.getD 5 "")
  let end_time := pyStrip (cells.getD 6 "")
  let location := pyStrip (cells.getD 8 "")
  let staff := pyStrip (cells.getD 11 "")
  let weeks_text := pyStrip (cells.getD 12 "")
  if filterRejects class_filter module_code module_name event_type then .ok []
  else
    expandRanges day_offset academic_year_start start_time end_time
      (module_name ++ " (" ++ event_type ++ ")") location
      ("Module: " ++ module_code ++ "\nStaff: " ++ staff ++ "\nSize: " ++ size)
      (pySplit ',' weeks_text)

/-- The per-row loop of `parse_day_table`: a row whose cell count is not 13
raises `ValueError("Invalid timetable format: Missing columns in row")`,
otherwise the row is expanded and its events appended. -/
def rowsToEvents (day_offset : Nat) (academic_year_start : Int)
    (class_filter : Option (String → String → String → Bool)) :
    List (List String) → Except ParseError (List CalendarEvent)
  | [] => .ok []
  | r :: rest =>
    if r.length ≠ 13 then .error .invalidRowFormat
    else
      match parse_table_row r day_offset academic_year_start class_filter with
      | .error e => .error e
      | .ok evs =>
        match rowsToEvents day_offset academic_year_start class_filter rest with
        | .error e => .error e
        | .ok more => .ok (evs ++ more)

/-- Model of `parse_day_table` (timetable_parser.py): skip the header row,
then process every remaining row strictly. A table is its list of rows,
each row its list of cell texts. -/
def parse_day_table (rows : List (List String)) (day_offset : Nat)
    (academic_year_start : Int)
    (class_filter : Option (String → String → String → Bool)) :
    Except ParseError (List CalendarEvent) :=
  rowsToEvents day_offset academic_year_start class_filter (rows.drop 1)

/-- The calendar assembled by `create_ics`: the two fixed `cal.add` header
fields plus the accumulated events. -/
structure Calendar where
  prodid : String
  version : String
  events : List CalendarEvent
  deriving DecidableEq, Repr, Inhabited

/-- The day-header loop of `create_ics`: each located weekday table is
parsed in document order; the first exception aborts the request. -/
def pageEvents (academic_year_start : Int)
    (class_filter : Option (String → String → String → Bool)) :
    List (Nat × List (List String)) → Except ParseError (List CalendarEvent)
  | [] => .ok []
  | (d, t) :: rest =>
    match parse_day_table t d academic_year_start class_filter with
    | .error e => .error e
    | .ok evs =>
      match pageEvents academic_year_start class_filter rest with
      | .error e => .error e
      | .ok more => .ok (evs ++ more)

/-- Model of `create_ics` (timetable_parser.py) after the HTTP fetch and
day-header location: the page is the list of located (day offset, table)
pairs. `prodid` and `version` are set before any table is parsed; an
exception propagates and no calendar is produced. -/
def create_ics (tables : List (Nat × List (List String)))
    (academic_year_start : Int)
    (class_filter : Option (String → String → String → Bool)) :
    Except ParseError Calendar :=
  match pageEvents academic_year_start class_filter tables with
  | .error e => .error e
  | .ok evs => .ok { prodid := "-//UNMC Timetable//EN", version := "2.0", events := evs }

/-- The label `f"{module_code} - {module_name}"` built by
`get_available_classes` from columns 0 and 1. -/
def classLabel (r : List String) : String :=
  pyStrip (r.getD 0 "") ++ " - " ++ pyStrip (r.getD 1 "")

/-- Model of `class_options.add(...)`: a Python `set`, represented as a
duplicate-free list. -/
def addOption (acc : List String) (s : String) : List String :=
  if s ∈ acc then acc else s :: acc

/-- The row loop of `get_available_classes`: rows with fewer than 12 cells
are skipped silently, the rest contribute their label to the set. -/
def scanRows (acc : List String) : List (List String) → List String
  | [] => acc
  | r :: rest =>
    scanRows (if r.length < 12 then acc else addOption acc (classLabel r)) rest

/-- The table loop of `get_available_classes`: every table on the page is
scanned, skipping its header row. -/
def scanTables (acc : List String) : List (List (List String)) → List String
  | [] => acc
  | t :: rest => scanTables (scanRows acc (t.drop 1)) rest

/-- Model of `get_available_classes` (timetable_parser.py) after the HTTP
fetch: scan every table of the page into a set of labels. -/
def get_available_classes (tables : List (List (List String))) : List String :=
  scanTables [] tables

/-- `ACADEMIC_YEAR = "2024/25"` (generate_ics.py). -/
def ACADEMIC_YEAR : String := "2024/25"

/-- The description built by the older variant's `parse_table_row`
(generate_ics.py line 77). -/
def old_description (module_code staff : String) : String :=
  "Module: " ++ module_code ++ "\nStaff: " ++ staff
    ++ "\nAcademic Year: " ++ ACADEMIC_YEAR

/-- `isLeap y` holds for proleptic-Gregorian leap years. -/
def isLeap (y : Nat) : Bool := y % 4 = 0 && (y % 100 ≠ 0 || y % 400 = 0)

/-- Length of month `m` of year `y`. -/
def daysInMonth (y m : Nat) : Nat :=
  match m with
  | 2 => if isLeap y then 29 else 28
  | 4 => 30
  | 6 => 30
  | 9 => 30
  | 11 => 30
  | _ => 31

/-- Days of year `y` that precede month `m`. -/
def daysBeforeMonth (y m : Nat) : Nat :=
  ((List.range (m - 1)).map (fun i => daysInMonth y (i + 1))).foldl Nat.add 0

/-- Proleptic-Gregorian ordinal day number (Rata Die): the value of
Python's `date(y, m, d).toordinal()`. Day 1 is 0001-01-01, a Monday. -/
def rataDie (y m d : Nat) : Nat :=
  365 * (y - 1) + (y - 1) / 4 - (y - 1) / 100 + (y - 1) / 400
    + daysBeforeMonth y m + d

/-- Weekday of an ordinal day number: 0 is Monday through 6 is Sunday. -/
def weekdayIndex (rd : Int) : Int := (rd - 1) % 7

/-- Whether an `Except`-modelled computation succeeded. -/
def exOk {α : Type} : Except ParseError α → Bool
  | .ok _ => true
  | .error _ => false

/-- The recurrence counts of an expansion result, `none` on an exception. -/
def countsOf (x : Except ParseError (List CalendarEvent)) : Option (List Int) :=
  match x with
  | .error _ => none
  | .ok evs => some (evs.map (fun ev => ev.rrule_count))

/-- The anchor (DTSTART) dates of an expansion result, `none` on an exception. -/
def anchorsOf (x : Except ParseError (List CalendarEvent)) : Option (List Int) :=
  match x with
  | .error _ => none
  | .ok evs => some (evs.map (fun ev => ev.dtstart.date))

/-! ### Characterization lemmas -/

lemma exOk_iff {α : Type} (x : Except ParseError α) :
    exOk x = true ↔ ∃ a, x = .ok a := by
  cases x <;> simp [exOk]

lemma parseWeekPiece_single {piece : String} {s e : Int}
    (hc : pyContains '-' piece = false)
    (h : parseWeekPiece piece = .ok (s, e)) : s = e := by
  unfold parseWeekPiece at h
  rw [hc] at h
  simp only [Bool.false_eq_true, if_false] at h
  cases hn : pyInt (pyStrip piece) with
  | none => rw [hn] at h; cases h
  | some n =>
    rw [hn] at h
    simp only [Except.ok.injEq, Prod.mk.injEq] at h
    omega

lemma expandPiece_ok {piece : String} {d : Nat} {ays : Int}
    {stT etT summ loc desc : String} {ev : CalendarEvent}
    (h : expandPiece piece d ays stT etT summ loc desc = .ok ev) :
    ∃ s e st et, parseWeekPiece piece = .ok (s, e) ∧
      parse_time stT = some st ∧ parse_time etT = some et ∧
      ev = { summary := summ
             dtstart := { date := get_date_for_week s ays + d, time := st, tz := tzName }
             dtend := { date := get_date_for_week s ays + d, time := et, tz := tzName }
             location := loc
             description := desc
             rrule_freq := "WEEKLY"
             rrule_interval := 1
             rrule_count := e - s + 1
             rrule_byday := day_abbr.getD d "" } := by
  unfold expandPiece at h
  cases hw : parseWeekPiece piece with
  | error e0 => rw [hw] at h; cases h
  | ok se =>
    obtain ⟨s, e⟩ := se
    rw [hw] at h
    cases hst : parse_time stT with
    | none => rw [hst] at h; cases h
    | some st =>
      rw [hst] at h
      cases het : parse_time etT with
      | none => rw [het] at h; cases h
      | some et =>
        rw [het] at h
        simp only [Except.ok.injEq] at h
        exact ⟨s, e, st, et, rfl, rfl, rfl, h.symm⟩

lemma expandRanges_ok {d : Nat} {ays : Int} {stT etT summ loc desc : String} :
    ∀ {pieces : List String} {evs : List CalendarEvent},
    expandRanges d ays stT etT summ loc desc pieces = .ok evs →
    evs.length = pieces.length ∧
    ∀ i, i < pieces.length →
      expandPiece (pieces.getD i "") d ays stT etT summ loc desc
        = .ok (evs.getD i default)
  | [], evs, h => by
    unfold expandRanges at h
    simp only [Except.ok.injEq] at h
    subst h
    exact ⟨rfl, fun i hi => absurd hi (by simp)⟩
  | p :: rest, evs, h => by
    unfold expandRanges at h
    cases hp : expandPiece p d ays stT etT summ loc desc with
    | error e0 => rw [hp] at h; cases h
    | ok ev =>
      rw [hp] at h
      cases hr : expandRanges d ays stT etT summ loc desc rest with
      | error e0 => rw [hr] at h; cases h
      | ok more =>
        rw [hr] at h
        simp only [Except.ok.injEq] at h
        subst h
        obtain ⟨hlen, hget⟩ := expandRanges_ok hr
        refine ⟨by simp [hlen], fun i hi => ?_⟩
        cases i with
        | zero => simpa using hp
        | succ j =>
          simpa using hget j (by simpa using hi)

lemma expandRanges_mem {d : Nat} {ays : Int} {stT etT summ loc desc : String} :
    ∀ {pieces : List String} {evs : List CalendarEvent},
    expandRanges d ays stT etT summ loc desc pieces = .ok evs →
    ∀ ev ∈ evs, ∃ p ∈ pieces, expandPiece p d ays stT etT summ loc desc = .ok ev
  | [], evs, h => by
    unfold expandRanges at h
    simp only [Except.ok.injEq] at h
    subst h
    intro ev hev
    cases hev
  | p :: rest, evs, h => by
    unfold expandRanges at h
    cases hp : expandPiece p d ays stT etT summ loc desc with
    | error e0 => rw [hp] at h; cases h
    | ok ev0 =>
      rw [hp] at h
      cases hr : expandRanges d ays stT etT summ loc desc rest with
      | error e0 => rw [hr] at h; cases h
      | ok more =>
        rw [hr] at h
        simp only [Except.ok.injEq] at h
        subst h
        intro ev hev
        rcases List.mem_cons.mp hev with rfl | hev
        · exact ⟨p, List.mem_cons_self p rest, hp⟩
        · obtain ⟨q, hq, hqe⟩ := expandRanges_mem hr ev hev
          exact ⟨q, List.mem_cons_of_mem p hq, hqe⟩

lemma expandRanges_error_head_time {d : Nat} {ays : Int}
    {stT etT summ loc desc p : String} {rest : List String} {s e : Int}
    (hp : parseWeekPiece p = .ok (s, e))
    (ht : parse_time stT = none ∨ parse_time etT = none) :
    ∃ err, expandRanges d ays stT etT summ loc desc (p :: rest) = .error err := by
  have hpe : ∃ err, expandPiece p d ays stT etT summ loc desc = .error err := by
    unfold expandPiece
    rw [hp]
    rcases ht with ht | ht
    · rw [ht]
      exact ⟨_, rfl⟩
    · cases hst : parse_time stT with
      | none => exact ⟨_, rfl⟩
      | some st =>
        rw [ht]
        exact ⟨_, rfl⟩
  obtain ⟨err, hpe⟩ := hpe
  refine ⟨err, ?_⟩
  unfold expandRanges
  rw [hpe]

/-- All week-range pieces of a row, parsed; mirrors running only the
`start, end` unpacking of the loop. -/
def parseAllPieces : List String → Except ParseError (List (Int × Int))
  | [] => .ok []
  | p :: rest =>
    match parseWeekPiece p with
    | .error e => .error e
    | .ok se =>
      match parseAllPieces rest with
      | .error e => .error e
      | .ok more => .ok (se :: more)

lemma expandRanges_ok_of_parsed {d : Nat} {ays : Int}
    {stT etT summ loc desc : String} {st et : Time}
    (hst : parse_time stT = some st) (het : parse_time etT = some et) :
    ∀ {pieces : List String} {ranges : List (Int × Int)},
    parseAllPieces pieces = .ok ranges →
    ∃ evs, expandRanges d ays stT etT summ loc desc pieces = .ok evs ∧
      evs.length = ranges.length ∧
      ∀ i, i < evs.length →
        (evs.getD i default).rrule_count
          = (ranges.getD i (0, 0)).2 - (ranges.getD i (0, 0)).1 + 1
  | [], ranges, h => by
    unfold parseAllPieces at h
    simp only [Except.ok.injEq] at h
    subst h
    exact ⟨[], rfl, rfl, fun i hi => absurd hi (by simp)⟩
  | p :: rest, ranges, h => by
    unfold parseAllPieces at h
    cases hp : parseWeekPiece p with
    | error e0 => rw [hp] at h; cases h
    | ok se =>
      rw [hp] at h
      cases hr : parseAllPieces rest with
      | error e0 => rw [hr] at h; cases h
      | ok more =>
        rw [hr] at h
        simp only [Except.ok.injEq] at h
        subst h
        obtain ⟨evs, hevs, hlen, hcnt⟩ :=
          @expandRanges_ok_of_parsed d ays stT etT summ loc desc st et hst het rest more hr
        obtain ⟨s, e⟩ := se
        refine ⟨{ summary := summ
                  dtstart := { date := get_date_for_week s ays + d, time := st, tz := tzName }
                  dtend := { date := get_date_for_week s ays + d, time := et, tz := tzName }
                  location := loc
                  description := desc
                  rrule_freq := "WEEKLY"
                  rrule_interval := 1
                  rrule_count := e - s + 1
                  rrule_byday := day_abbr.getD d "" } :: evs, ?_, by simp [hlen], ?_⟩
        · unfold expandRanges expandPiece
          rw [hp, hst, het, hevs]
        · intro i hi
          cases i with
          | zero => simp
          | succ j =>
            simpa using hcnt j (by simpa using hi)

lemma rowsToEvents_error_of_bad {d : Nat} {ays : Int}
    {f : Option (String → String → String → Bool)} :
    ∀ {rows : List (List String)},
    (∃ r ∈ rows, r.length ≠ 13) →
    ∃ e, rowsToEvents d ays f rows = .error e
  | [], h => by simp at h
  | r :: rest, h => by
    unfold rowsToEvents
    by_cases hr : r.length = 13
    · simp only [hr, ne_eq, not_true_eq_false, if_false]
      have hbad : ∃ r ∈ rest, r.length ≠ 13 := by
        rcases h with ⟨r', hr', hlen⟩
        rcases List.mem_cons.mp hr' with rfl | hr'
        · exact absurd hr hlen
        · exact ⟨r', hr', hlen⟩
      cases hp : parse_table_row r d ays f with
      | error e0 => exact ⟨e0, rfl⟩
      | ok evs =>
        obtain ⟨e0, he0⟩ := rowsToEvents_error_of_bad hbad
        rw [he0]
        exact ⟨e0, rfl⟩
    · simp only [ne_eq, hr, not_false_eq_true, if_true]
      exact ⟨.invalidRowFormat, rfl⟩

lemma rowsToEvents_invalid_of_first_bad {d : Nat} {ays : Int}
    {f : Option (String → String → String → Bool)} :
    ∀ {rows : List (List String)},
    (∀ r ∈ rows, r.length = 13 → exOk (parse_table_row r d ays f) = true) →
    (∃ r ∈ rows, r.length ≠ 13) →
    rowsToEvents d ays f rows = .error .invalidRowFormat
  | [], _, h => by simp at h
  | r :: rest, hgood, h => by
    unfold rowsToEvents
    by_cases hr : r.length = 13
    · simp only [hr, ne_eq, not_true_eq_false, if_false]
      have hbad : ∃ r ∈ rest, r.length ≠ 13 := by
        rcases h with ⟨r', hr', hlen⟩
        rcases List.mem_cons.mp hr' with rfl | hr'
        · exact absurd hr hlen
        · exact ⟨r', hr', hlen⟩
      obtain ⟨evs, hevs⟩ :=
        (exOk_iff _).mp (hgood r (List.mem_cons_self r rest) hr)
      rw [hevs]
      rw [rowsToEvents_invalid_of_first_bad
        (fun r' hr' => hgood r' (List.mem_cons_of_mem r hr')) hbad]
    · simp only [ne_eq, hr, not_false_eq_true, if_true]

lemma rowsToEvents_ok_lengths {d : Nat} {ays : Int}
    {f : Option (String → String → String → Bool)} :
    ∀ {rows : List (List String)} {evs : List CalendarEvent},
    rowsToEvents d ays f rows = .ok evs → ∀ r ∈ rows, r.length = 13
  | [], evs, _ => by
    intro r hr
    cases hr
  | r0 :: rest, evs, h => by
    unfold rowsToEvents at h
    by_cases hr0 : r0.length = 13
    · simp only [hr0, ne_eq, not_true_eq_false, if_false] at h
      cases hp : parse_table_row r0 d ays f with
      | error e0 => rw [hp] at h; cases h
      | ok evs0 =>
        rw [hp] at h
        cases hrest : rowsToEvents d ays f rest with
        | error e0 => rw [hrest] at h; cases h
        | ok more =>
          intro r hr
          rcases List.mem_cons.mp hr with rfl | hr
          · exact hr0
          · exact rowsToEvents_ok_lengths hrest r hr
    · simp only [ne_eq, hr0, not_false_eq_true, if_true] at h
      cases h

lemma pageEvents_error_of_mem {ays : Int}
    {f : Option (String → String → String → Bool)}
    {d : Nat} {t : List (List String)} :
    ∀ {tables : List (Nat × List (List String))},
    (d, t) ∈ tables →
    (∃ e0, parse_day_table t d ays f = .error e0) →
    ∃ e, pageEvents ays f tables = .error e
  | [], hmem, _ => by cases hmem
  | (d', t') :: rest, hmem, herr => by
    unfold pageEvents
    cases hp : parse_day_table t' d' ays f with
    | error e0 => exact ⟨e0, rfl⟩
    | ok evs =>
      have hmem' : (d, t) ∈ rest := by
        rcases List.mem_cons.mp hmem with heq | hmem'
        · obtain ⟨e0, he0⟩ := herr
          rw [Prod.mk.injEq] at heq
          rw [heq.1, heq.2] at he0
          rw [hp] at he0
          cases he0
        · exact hmem'
      obtain ⟨e0, he0⟩ := pageEvents_error_of_mem hmem' herr
      rw [he0]
      exact ⟨e0, rfl⟩

lemma create_ics_error {tables : List (Nat × List (List String))} {ays : Int}
    {f : Option (String → String → String → Bool)} {e : ParseError}
    (h : pageEvents ays f tables = .error e) :
    create_ics tables ays f = .error e := by
  unfold create_ics
  rw [h]

lemma mem_addOption {acc : List String} {s x : String} :
    x ∈ addOption acc s ↔ x ∈ acc ∨ x = s := by
  unfold addOption
  by_cases hs : s ∈ acc
  · simp only [if_pos hs]
    constructor
    · exact Or.inl
    · rintro (hx | rfl)
      · exact hx
      · exact hs
  · simp only [if_neg hs, List.mem_cons]
    tauto

lemma nodup_addOption {acc : List String} {s : String} (h : acc.Nodup) :
    (addOption acc s).Nodup := by
  unfold addOption
  by_cases hs : s ∈ acc
  · simpa [hs]
  · simp [List.nodup_cons, hs, h]

lemma mem_scanRows {x : String} :
    ∀ {rows : List (List String)} {acc : List String},
    x ∈ scanRows acc rows ↔
      x ∈ acc ∨ ∃ r ∈ rows, 12 ≤ r.length ∧ x = classLabel r
  | [], acc => by simp [scanRows]
  | r :: rest, acc => by
    unfold scanRows
    rw [mem_scanRows]
    by_cases hr : r.length < 12
    · have h12 : ¬ (12 ≤ r.length) := by omega
      simp only [if_pos hr, List.mem_cons]
      constructor
      · rintro (hx | ⟨r', hr', hlen, hxl⟩)
        · exact Or.inl hx
        · exact Or.inr ⟨r', Or.inr hr', hlen, hxl⟩
      · rintro (hx | ⟨r', hr' | hr', hlen, hxl⟩)
        · exact Or.inl hx
        · subst hr'
          exact absurd hlen h12
        · exact Or.inr ⟨r', hr', hlen, hxl⟩
    · have h12 : 12 ≤ r.length := by omega
      simp only [if_neg hr, mem_addOption, List.mem_cons]
      constructor
      · rintro ((hx | hxl) | ⟨r', hr', hlen, hxl⟩)
        · exact Or.inl hx
        · exact Or.inr ⟨r, Or.inl rfl, h12, hxl⟩
        · exact Or.inr ⟨r', Or.inr hr', hlen, hxl⟩
      · rintro (hx | ⟨r', hr' | hr', hlen, hxl⟩)
        · exact Or.inl (Or.inl hx)
        · subst hr'
          exact Or.inl (Or.inr hxl)
        · exact Or.inr ⟨r', hr', hlen, hxl⟩

lemma nodup_scanRows :
    ∀ {rows : List (List String)} {acc : List String},
    acc.Nodup → (scanRows acc rows).Nodup
  | [], _, h => h
  | r :: rest, acc, h => by
    unfold scanRows
    by_cases hr : r.length < 12
    · simp only [if_pos hr]
      exact nodup_scanRows h
    · simp only [if_neg hr]
      exact nodup_scanRows (nodup_addOption h)

lemma mem_scanTables {x : String} :
    ∀ {tables : List (List (List String))} {acc : List String},
    x ∈ scanTables acc tables ↔
      x ∈ acc ∨ ∃ t ∈ tables, ∃ r ∈ t.drop 1, 12 ≤ r.length ∧ x = classLabel r
  | [], acc => by simp [scanTables]
  | t :: rest, acc => by
    unfold scanTables
    rw [mem_scanTables, mem_scanRows]
    simp only [List.mem_cons]
    constructor
    · rintro ((hx | ⟨r, hr, hlen, hxl⟩) | ⟨t', ht', r, hr, hlen, hxl⟩)
      · exact Or.inl hx
      · exact Or.inr ⟨t, Or.inl rfl, r, hr, hlen, hxl⟩
      · exact Or.inr ⟨t', Or.inr ht', r, hr, hlen, hxl⟩
    · rintro (hx | ⟨t', ht' | ht', r, hr, hlen, hxl⟩)
      · exact Or.inl (Or.inl hx)
      · subst ht'
        exact Or.inl (Or.inr ⟨r, hr, hlen, hxl⟩)
      · exact Or.inr ⟨t', ht', r, hr, hlen, hxl⟩

lemma nodup_scanTables :
    ∀ {tables : List (List (List String))} {acc : List String},
    acc.Nodup → (scanTables acc tables).Nodup
  | [], _, h => h
  | t :: rest, acc, h => by
    unfold scanTables
    exact nodup_scanTables (nodup_scanRows h)

lemma parse_table_row_rejected {cells : List String} {d : Nat} {ays : Int}
    {f : Option (String → String → String → Bool)}
    (h : filterRejects f (pyStrip (cells.getD 0 "")) (pyStrip (cells.getD 1 ""))
      (pyStrip (cells.getD 2 "")) = true) :
    parse_table_row cells d ays f = .ok [] := by
  simp only [parse_table_row]
  rw [h]
  simp

lemma parse_table_row_passes {cells : List String} {d : Nat} {ays : Int}
    {f : Option (String → String → String → Bool)}
    (h : filterRejects f (pyStrip (cells.getD 0 "")) (pyStrip (cells.getD 1 ""))
      (pyStrip (cells.getD 2 "")) = false) :
    parse_table_row cells d ays f =
      expandRanges d ays (pyStrip (cells.getD 5 "")) (pyStrip (cells.getD 6 ""))
        (pyStrip (cells.getD 1 "") ++ " (" ++ pyStrip (cells.getD 2 "") ++ ")")
        (pyStrip (cells.getD 8 ""))
        ("Module: " ++ pyStrip (cells.getD 0 "") ++ "\nStaff: "
          ++ pyStrip (cells.getD 11 "") ++ "\nSize: " ++ pyStrip (cells.getD 3 ""))
        (pySplit ',' (pyStrip (cells.getD 12 ""))) := by
  simp only [parse_table_row]
  rw [h]
  simp

lemma rowsToEvents_filtered {d : Nat} {ays : Int}
    {g : String → String → String → Bool} (hg : ∀ a b c, g a b c = false) :
    ∀ {rows : List (List String)}, (∀ r ∈ rows, r.length = 13) →
    rowsToEvents d ays (some g) rows = .ok []
  | [], _ => rfl
  | r :: rest, hlen => by
    unfold rowsToEvents
    rw [if_neg (by simp [hlen r (List.mem_cons_self r rest)])]
    rw [parse_table_row_rejected (by simp [filterRejects, hg])]
    rw [rowsToEvents_filtered hg (fun r' hr' => hlen r' (List.mem_cons_of_mem r hr'))]
    rfl

lemma pageEvents_filtered {ays : Int} {g : String → String → String → Bool}
    (hg : ∀ a b c, g a b c = false) :
    ∀ {tables : List (Nat × List (List String))},
    (∀ t ∈ tables, ∀ r ∈ t.2.drop 1, r.length = 13) →
    pageEvents ays (some g) tables = .ok []
  | [], _ => rfl
  | (d, t) :: rest, hlen => by
    unfold pageEvents parse_day_table
    rw [rowsToEvents_filtered hg
      (show ∀ r ∈ t.drop 1, r.length = 13 from hlen (d, t) (List.mem_cons_self _ _))]
    rw [pageEvents_filtered hg (fun t' ht' => hlen t' (List.mem_cons_of_mem _ ht'))]
    rfl

/-! ### Claims -/

/-- C1: for every row that passes the filter, expansion produces exactly one
CalendarEvent per comma-separated week piece, each with its own anchor date
and recurrence count end - start + 1; a single-number piece (no dash) is
treated as the range N-N and still carries a WEEKLY recurrence rule with
count 1. -/
theorem c1_one_event_per_week_piece (cells : List String) (d : Nat) (ays : Int)
    (f : Option (String → String → String → Bool)) (evs : List CalendarEvent)
    (hpass : filterRejects f (pyStrip (cells.getD 0 "")) (pyStrip (cells.getD 1 ""))
      (pyStrip (cells.getD 2 "")) = false)
    (h : parse_table_row cells d ays f = .ok evs) :
    evs.length = (pySplit ',' (pyStrip (cells.getD 12 ""))).length ∧
    ∀ i, i < evs.length →
      ∃ s e,
        parseWeekPiece ((pySplit ',' (pyStrip (cells.getD 12 ""))).getD i "")
          = .ok (s, e) ∧
        (evs.getD i default).rrule_count = e - s + 1 ∧
        (evs.getD i default).rrule_freq = "WEEKLY" ∧
        (evs.getD i default).dtstart.date = ays + 7 * (s - 1) + d ∧
        (pyContains '-' ((pySplit ',' (pyStrip (cells.getD 12 ""))).getD i "") = false →
          s = e ∧ (evs.getD i default).rrule_count = 1) := by
  rw [parse_table_row_passes hpass] at h
  obtain ⟨hlen, hget⟩ := expandRanges_ok h
  refine ⟨hlen, fun i hi => ?_⟩
  have hp := hget i (hlen ▸ hi)
  obtain ⟨s, e, st, et, hw, hst, het, hev⟩ := expandPiece_ok hp
  refine ⟨s, e, hw, by rw [hev], by rw [hev], by rw [hev]; rfl, ?_⟩
  intro hc
  have hse := parseWeekPiece_single hc hw
  refine ⟨hse, ?_⟩
  rw [hev]
  show e - s + 1 = 1
  omega

/-- C2: each produced event's first-occurrence date is
academic_year_start + (start - 1) weeks + weekday_offset days, its BYDAY
code is the offset's entry of the MO/TU/WE/TH/FR table, and when
academic_year_start is a Monday the computed date's weekday equals the
offset. -/
theorem c2_first_occurrence_and_byday (cells : List String) (d : Nat)
    (hd : d < 5) (ays : Int) (f : Option (String → String → String → Bool))
    (evs : List CalendarEvent) (h : parse_table_row cells d ays f = .ok evs)
    (i : Nat) (hi : i < evs.length) :
    ∃ s e,
      parseWeekPiece ((pySplit ',' (pyStrip (cells.getD 12 ""))).getD i "")
        = .ok (s, e) ∧
      (evs.getD i default).dtstart.date = ays + 7 * (s - 1) + d ∧
      (evs.getD i default).rrule_byday = ["MO", "TU", "WE", "TH", "FR"].getD d "" ∧
      (weekdayIndex ays = 0 →
        weekdayIndex ((evs.getD i default).dtstart.date) = d) := by
  cases hrej : filterRejects f (pyStrip (cells.getD 0 "")) (pyStrip (cells.getD 1 ""))
      (pyStrip (cells.getD 2 "")) with
  | true =>
    rw [parse_table_row_rejected hrej] at h
    simp only [Except.ok.injEq] at h
    subst h
    simp at hi
  | false =>
    rw [parse_table_row_passes hrej] at h
    obtain ⟨hlen, hget⟩ := expandRanges_ok h
    have hp := hget i (hlen ▸ hi)
    obtain ⟨s, e, st, et, hw, hst, het, hev⟩ := expandPiece_ok hp
    refine ⟨s, e, hw, by rw [hev]; rfl, by rw [hev]; rfl, ?_⟩
    intro hmon
    unfold weekdayIndex at hmon
    rw [hev]
    show weekdayIndex (get_date_for_week s ays + (d : Int)) = (d : Int)
    unfold weekdayIndex get_date_for_week
    omega

/-- C6: every produced event's DTSTART and DTEND sit on the same anchor
date, carry the row's parsed start and end times, and are localized to the
fixed institution timezone Asia/Kuala_Lumpur. -/
theorem c6_timezone_localization (cells : List String) (d : Nat) (ays : Int)
    (f : Option (String → String → String → Bool)) (evs : List CalendarEvent)
    (h : parse_table_row cells d ays f = .ok evs) :
    ∀ ev ∈ evs,
      ev.dtstart.tz = "Asia/Kuala_Lumpur" ∧
      ev.dtend.tz = "Asia/Kuala_Lumpur" ∧
      ev.dtstart.date = ev.dtend.date ∧
      parse_time (pyStrip (cells.getD 5 "")) = some ev.dtstart.time ∧
      parse_time (pyStrip (cells.getD 6 "")) = some ev.dtend.time ∧
      ∃ p ∈ pySplit ',' (pyStrip (cells.getD 12 "")), ∃ s e,
        parseWeekPiece p = .ok (s, e) ∧
        ev.dtstart.date = get_date_for_week s ays + d := by
  cases hrej : filterRejects f (pyStrip (cells.getD 0 "")) (pyStrip (cells.getD 1 ""))
      (pyStrip (cells.getD 2 "")) with
  | true =>
    rw [parse_table_row_rejected hrej] at h
    simp only [Except.ok.injEq] at h
    subst h
    intro ev hev
    cases hev
  | false =>
    rw [parse_table_row_passes hrej] at h
    intro ev hev
    obtain ⟨p, hpmem, hpe⟩ := expandRanges_mem h ev hev
    obtain ⟨s, e, st, et, hw, hst, het, hevq⟩ := expandPiece_ok hpe
    subst hevq
    exact ⟨rfl, rfl, rfl, hst, het, p, hpmem, s, e, hw, rfl⟩

/-- C8: the class-listing scan visits every table, skips each table's
header row, emits the combined module-code - module-name label exactly for
the remaining rows with at least 12 cells (shorter rows are skipped
silently, never raising), and the returned collection is duplicate-free. -/
theorem c8_class_listing_scan (tables : List (List (List String))) :
    (∀ s, s ∈ get_available_classes tables ↔
      ∃ t ∈ tables, ∃ r ∈ t.drop 1, 12 ≤ r.length ∧ s = classLabel r) ∧
    (get_available_classes tables).Nodup := by
  constructor
  · intro s
    unfold get_available_classes
    rw [mem_scanTables]
    simp
  · exact nodup_scanTables List.nodup_nil

/-- C9: a rejected row yields zero events without any parsing of its week
or time text (so garbage there cannot raise), while the 13-column shape
check in the day-table pass aborts with an error no matter what the
predicate answers. -/
theorem c9_filter_short_circuits_before_parsing (cells : List String)
    (d : Nat) (ays : Int) (g : String → String → String → Bool)
    (rows : List (List String)) :
    (g (pyStrip (cells.getD 0 "")) (pyStrip (cells.getD 1 ""))
        (pyStrip (cells.getD 2 "")) = false →
      parse_table_row cells d ays (some g) = .ok []) ∧
    ((∃ r ∈ rows.drop 1, r.length ≠ 13) →
      ∃ e, parse_day_table rows d ays (some g) = .error e) := by
  constructor
  · intro hg
    exact parse_table_row_rejected (by simp only [filterRejects, hg, Bool.not_false])
  · intro hbad
    exact rowsToEvents_error_of_bad hbad

/-- C10: every event of the main variant carries the description built from
the trimmed module code (column 0), staff (column 11) and class size
(column 3), and the summary built from the trimmed module name (column 1)
and event type (column 2); the older variant's description instead ends
with the academic-year label. -/
theorem c10_description_and_summary (cells : List String) (d : Nat)
    (ays : Int) (f : Option (String → String → String → Bool))
    (evs : List CalendarEvent) (h : parse_table_row cells d ays f = .ok evs) :
    (∀ ev ∈ evs,
      ev.description = "Module: " ++ pyStrip (cells.getD 0 "") ++ "\nStaff: "
        ++ pyStrip (cells.getD 11 "") ++ "\nSize: " ++ pyStrip (cells.getD 3 "") ∧
      ev.summary = pyStrip (cells.getD 1 "") ++ " (" ++ pyStrip (cells.getD 2 "") ++ ")") ∧
    ((∀ code staff, old_description code staff
      = "Module: " ++ code ++ "\nStaff: " ++ staff ++ "\nAcademic Year: " ++ ACADEMIC_YEAR) ∧
      ACADEMIC_YEAR = "2024/25") := by
  constructor
  · cases hrej : filterRejects f (pyStrip (cells.getD 0 "")) (pyStrip (cells.getD 1 ""))
        (pyStrip (cells.getD 2 "")) with
    | true =>
      rw [parse_table_row_rejected hrej] at h
      simp only [Except.ok.injEq] at h
      subst h
      intro ev hev
      cases hev
    | false =>
      rw [parse_table_row_passes hrej] at h
      intro ev hev
      obtain ⟨p, hpmem, hpe⟩ := expandRanges_mem h ev hev
      obtain ⟨s, e, st, et, hw, hst, het, hevq⟩ := expandPiece_ok hpe
      subst hevq
      exact ⟨rfl, rfl⟩
  · exact ⟨fun code staff => rfl, rfl⟩

/-- The concrete 13-column row of claim C3, with parseable times and the
week text 23-30, 32-35. -/
def cellsC3 : List String :=
  ["COMP1001", "Programming", "Lecture", "120", "", "9:00", "11:00", "",
   "BB80", "", "", "Smith", "23-30, 32-35"]

/-- C3 counterexample: with academic_year_start = 2024-09-02, the row with
week text 23-30, 32-35 is anchored on 2025-02-03 and 2025-04-07 — not on
2024-09-02 and 2024-10-28 as the claim states (week 23 is anchored 22
weeks after the year start, not at the year start). -/
theorem c3_counterexample :
    anchorsOf (parse_table_row cellsC3 0 (rataDie 2024 9 2) none)
      = some [(rataDie 2025 2 3 : Int), (rataDie 2025 4 7 : Int)] ∧
    (rataDie 2025 2 3 : Int) ≠ (rataDie 2024 9 2 : Int) ∧
    (rataDie 2025 4 7 : Int) ≠ (rataDie 2024 10 28 : Int) := by
  refine ⟨by decide, by decide, by decide⟩

/-- C3 (amended): the 13-column row with week text 23-30, 32-35,
weekday_offset 0 and academic_year_start 2024-09-02 yields exactly two
events: the first anchored on 2025-02-03 with recurrence count 8, the
second anchored on 2025-04-07 with recurrence count 4. -/
theorem c3_two_events_from_two_ranges :
    countsOf (parse_table_row cellsC3 0 (rataDie 2024 9 2) none) = some [8, 4] ∧
    anchorsOf (parse_table_row cellsC3 0 (rataDie 2024 9 2) none)
      = some [(rataDie 2025 2 3 : Int), (rataDie 2025 4 7 : Int)] := by
  refine ⟨by decide, by decide⟩

/-- A 13-column row whose week text is the reversed range 5-3 and whose
times parse. -/
def cellsRev : List String :=
  ["AB1", "Maths", "Lecture", "30", "", "9:00", "10:00", "", "Room 1", "",
   "", "Dr X", "5-3"]

/-- C4 counterexample: a week-range piece 5-3 with end smaller than start
does not make expansion fail — it produces one event whose recurrence
count is -1. -/
theorem c4_counterexample :
    countsOf (parse_table_row cellsRev 0 100 none) = some [-1] := by
  decide

/-- C4 (amended): when a row passes the filter and its first week piece
parses, an unparseable start or end time makes expansion raise, and the
error propagates through day-table and full-calendar generation; but a
week range with end smaller than start raises nothing: whenever every
piece and both times parse, expansion succeeds and each event's count is
end - start + 1, which is not positive when end is smaller than start. -/
theorem c4_time_error_propagates_reversed_range_silent (cells : List String)
    (d : Nat) (ays : Int) (f : Option (String → String → String → Bool))
    (p0 : String) (rest : List String)
    (hpass : filterRejects f (pyStrip (cells.getD 0 "")) (pyStrip (cells.getD 1 ""))
      (pyStrip (cells.getD 2 "")) = false)
    (hpieces : pySplit ',' (pyStrip (cells.getD 12 "")) = p0 :: rest)
    (h13 : cells.length = 13) :
    ((∃ s e, parseWeekPiece p0 = .ok (s, e)) →
      (parse_time (pyStrip (cells.getD 5 "")) = none ∨
        parse_time (pyStrip (cells.getD 6 "")) = none) →
      (∃ err, parse_table_row cells d ays f = .error err) ∧
      (∀ hdr pre post, ∃ err,
        create_ics (pre ++ (d, [hdr, cells]) :: post) ays f = .error err)) ∧
    (∀ st et ranges,
      parse_time (pyStrip (cells.getD 5 "")) = some st →
      parse_time (pyStrip (cells.getD 6 "")) = some et →
      parseAllPieces (p0 :: rest) = .ok ranges →
      ∃ evs, parse_table_row cells d ays f = .ok evs ∧
        evs.length = ranges.length ∧
        ∀ i, i < evs.length →
          (evs.getD i default).rrule_count
            = (ranges.getD i (0, 0)).2 - (ranges.getD i (0, 0)).1 + 1) := by
  constructor
  · rintro ⟨s, e, hp0⟩ ht
    have herr : ∃ err, parse_table_row cells d ays f = .error err := by
      rw [parse_table_row_passes hpass, hpieces]
      exact expandRanges_error_head_time hp0 ht
    refine ⟨herr, fun hdr pre post => ?_⟩
    obtain ⟨err, herr'⟩ := herr
    have hday : parse_day_table [hdr, cells] d ays f = .error err := by
      show rowsToEvents d ays f [cells] = .error err
      unfold rowsToEvents
      rw [if_neg (by simp [h13]), herr']
    obtain ⟨e2, he2⟩ := pageEvents_error_of_mem
      (List.mem_append.mpr (Or.inr (List.mem_cons_self _ _))) ⟨err, hday⟩
    exact ⟨e2, create_ics_error he2⟩
  · intro st et ranges hst het hranges
    obtain ⟨evs, hevs, hlen, hcnt⟩ := expandRanges_ok_of_parsed hst het hranges
    refine ⟨evs, ?_, hlen, hcnt⟩
    rw [parse_table_row_passes hpass, hpieces, hevs]

/-- C5: in full-calendar generation, a non-header row whose cell count
differs from 13 makes the day-table extraction fail with the
invalid-row-format error (provided the well-shaped rows themselves
parse), never succeeds, and aborts any whole-page generation containing
that table. -/
theorem c5_strict_thirteen_column_abort (rows : List (List String)) (d : Nat)
    (ays : Int) (f : Option (String → String → String → Bool))
    (hgood : ∀ r ∈ rows.drop 1, r.length = 13 →
      exOk (parse_table_row r d ays f) = true)
    (hbad : ∃ r ∈ rows.drop 1, r.length ≠ 13) :
    parse_day_table rows d ays f = .error .invalidRowFormat ∧
    (∀ evs, parse_day_table rows d ays f ≠ .ok evs) ∧
    (∀ pre post, ∃ err, create_ics (pre ++ (d, rows) :: post) ays f = .error err) := by
  have h1 : parse_day_table rows d ays f = .error .invalidRowFormat :=
    rowsToEvents_invalid_of_first_bad hgood hbad
  refine ⟨h1, ?_, ?_⟩
  · intro evs hevs
    rw [h1] at hevs
    cases hevs
  · intro pre post
    obtain ⟨e, he⟩ := pageEvents_error_of_mem
      (List.mem_append.mpr (Or.inr (List.mem_cons_self _ _)))
      ⟨.invalidRowFormat, h1⟩
    exact ⟨e, create_ics_error he⟩

/-- C7: a row on which the include predicate answers false contributes
zero events, and a predicate that rejects everything turns a well-shaped
page into a calendar that still carries the fixed prodid and version
constants and contains zero events. -/
theorem c7_exclusion_predicate (g : String → String → String → Bool)
    (tables : List (Nat × List (List String))) (ays : Int) :
    (∀ cells d, g (pyStrip (cells.getD 0 "")) (pyStrip (cells.getD 1 ""))
        (pyStrip (cells.getD 2 "")) = false →
      parse_table_row cells d ays (some g) = .ok []) ∧
    ((∀ a b c, g a b c = false) →
      (∀ t ∈ tables, ∀ r ∈ t.2.drop 1, r.length = 13) →
      create_ics tables ays (some g)
        = .ok { prodid := "-//UNMC Timetable//EN", version := "2.0", events := [] }) := by
  constructor
  · intro cells d hg
    exact parse_table_row_rejected (by simp only [filterRejects, hg, Bool.not_false])
  · intro hg hlen
    unfold create_ics
    rw [pageEvents_filtered hg hlen]

/-! ### Witnesses -/

/-- A representative well-formed 13-cell row used in witnesses. -/
def cellsW : List String :=
  ["AB1", "Maths", "Lecture", "30", "", "9:00", "10:00", "", "Room 1", "",
   "", "Dr X", "1-2"]

/-- The event list produced by expanding `cellsW` on Monday of the
2024-09-02 academic year. -/
def evsW : List CalendarEvent :=
  [{ summary := "Maths (Lecture)"
     dtstart := { date := (rataDie 2024 9 2 : Int), time := { hour := 9, minute := 0 },
                  tz := "Asia/Kuala_Lumpur" }
     dtend := { date := (rataDie 2024 9 2 : Int), time := { hour := 10, minute := 0 },
                tz := "Asia/Kuala_Lumpur" }
     location := "Room 1"
     description := "Module: AB1\nStaff: Dr X\nSize: 30"
     rrule_freq := "WEEKLY"
     rrule_interval := 1
     rrule_count := 2
     rrule_byday := "MO" }]

/-- Witness for C1: the concrete row `cellsW` satisfies both hypotheses and
the conclusion at index 0. -/
theorem c1_witness :
    filterRejects none (pyStrip (cellsW.getD 0 "")) (pyStrip (cellsW.getD 1 ""))
      (pyStrip (cellsW.getD 2 "")) = false ∧
    parse_table_row cellsW 0 (rataDie 2024 9 2) none = .ok evsW ∧
    evsW.length = (pySplit ',' (pyStrip (cellsW.getD 12 ""))).length ∧
    ∃ s e,
      parseWeekPiece ((pySplit ',' (pyStrip (cellsW.getD 12 ""))).getD 0 "")
        = .ok (s, e) ∧
      (evsW.getD 0 default).rrule_count = e - s + 1 ∧
      (evsW.getD 0 default).rrule_freq = "WEEKLY" ∧
      (evsW.getD 0 default).dtstart.date
        = (rataDie 2024 9 2 : Int) + 7 * (s - 1) + ((0 : Nat) : Int) ∧
      (pyContains '-' ((pySplit ',' (pyStrip (cellsW.getD 12 ""))).getD 0 "") = false →
        s = e ∧ (evsW.getD 0 default).rrule_count = 1) :=
  ⟨by decide, by decide,
    (c1_one_event_per_week_piece cellsW 0 (rataDie 2024 9 2) none evsW
      (by decide) (by decide)).1,
    (c1_one_event_per_week_piece cellsW 0 (rataDie 2024 9 2) none evsW
      (by decide) (by decide)).2 0 (by decide)⟩

/-- Witness for C2 at the same concrete row, index 0. -/
theorem c2_witness :
    (0 : Nat) < 5 ∧
    parse_table_row cellsW 0 (rataDie 2024 9 2) none = .ok evsW ∧
    0 < evsW.length ∧
    ∃ s e,
      parseWeekPiece ((pySplit ',' (pyStrip (cellsW.getD 12 ""))).getD 0 "")
        = .ok (s, e) ∧
      (evsW.getD 0 default).dtstart.date
        = (rataDie 2024 9 2 : Int) + 7 * (s - 1) + ((0 : Nat) : Int) ∧
      (evsW.getD 0 default).rrule_byday = ["MO", "TU", "WE", "TH", "FR"].getD 0 "" ∧
      (weekdayIndex (rataDie 2024 9 2) = 0 →
        weekdayIndex ((evsW.getD 0 default).dtstart.date) = ((0 : Nat) : Int)) :=
  ⟨by decide, by decide, by decide,
    c2_first_occurrence_and_byday cellsW 0 (by decide) (rataDie 2024 9 2) none
      evsW (by decide) 0 (by decide)⟩

/-- A 13-cell row whose start time does not parse. -/
def cellsBadTime : List String :=
  ["AB1", "Maths", "Lecture", "30", "", "25:00", "10:00", "", "Room 1", "",
   "", "Dr X", "2-4"]

/-- Witness for C4: the concrete row `cellsBadTime` satisfies the
hypotheses, and its unparseable start time makes expansion and
whole-calendar generation fail. -/
theorem c4_witness :
    filterRejects none (pyStrip (cellsBadTime.getD 0 ""))
      (pyStrip (cellsBadTime.getD 1 "")) (pyStrip (cellsBadTime.getD 2 "")) = false ∧
    pySplit ',' (pyStrip (cellsBadTime.getD 12 "")) = "2-4" :: [] ∧
    cellsBadTime.length = 13 ∧
    (∃ err, parse_table_row cellsBadTime 0 100 none = .error err) ∧
    (∀ hdr pre post, ∃ err,
      create_ics (pre ++ (0, [hdr, cellsBadTime]) :: post) 100 none = .error err) := by
  refine ⟨by decide, by decide, by decide, ?_⟩
  exact (c4_time_error_propagates_reversed_range_silent cellsBadTime 0 100 none
    "2-4" [] (by decide) (by decide) (by decide)).1 ⟨2, 4, by decide⟩ (Or.inl (by decide))

/-- A table whose first data row is well-formed and whose second has only
two cells. -/
def rowsW : List (List String) :=
  [["hdr"], cellsW, ["only", "two"]]

/-- Witness for C5: the concrete table `rowsW` satisfies both hypotheses,
and its two-cell row aborts the extraction. -/
theorem c5_witness :
    (∀ r ∈ rowsW.drop 1, r.length = 13 →
      exOk (parse_table_row r 0 (rataDie 2024 9 2) none) = true) ∧
    (∃ r ∈ rowsW.drop 1, r.length ≠ 13) ∧
    (parse_day_table rowsW 0 (rataDie 2024 9 2) none = .error .invalidRowFormat ∧
     (∀ evs, parse_day_table rowsW 0 (rataDie 2024 9 2) none ≠ .ok evs) ∧
     (∀ pre post, ∃ err,
       create_ics (pre ++ (0, rowsW) :: post) (rataDie 2024 9 2) none = .error err)) := by
  refine ⟨by decide, by decide, ?_⟩
  exact c5_strict_thirteen_column_abort rowsW 0 (rataDie 2024 9 2) none
    (by decide) (by decide)

/-- Witness for C6 at the concrete row `cellsW` and its single event. -/
theorem c6_witness :
    parse_table_row cellsW 0 (rataDie 2024 9 2) none = .ok evsW ∧
    ((evsW.getD 0 default).dtstart.tz = "Asia/Kuala_Lumpur" ∧
     (evsW.getD 0 default).dtend.tz = "Asia/Kuala_Lumpur" ∧
     (evsW.getD 0 default).dtstart.date = (evsW.getD 0 default).dtend.date ∧
     parse_time (pyStrip (cellsW.getD 5 "")) = some (evsW.getD 0 default).dtstart.time ∧
     parse_time (pyStrip (cellsW.getD 6 "")) = some (evsW.getD 0 default).dtend.time ∧
     ∃ p ∈ pySplit ',' (pyStrip (cellsW.getD 12 "")), ∃ s e,
       parseWeekPiece p = .ok (s, e) ∧
       (evsW.getD 0 default).dtstart.date
         = get_date_for_week s (rataDie 2024 9 2) + ((0 : Nat) : Int)) := by
  refine ⟨by decide, ?_⟩
  exact c6_timezone_localization cellsW 0 (rataDie 2024 9 2) none evsW (by decide)
    (evsW.getD 0 default) (by decide)

/-- The predicate that rejects every class. -/
def alwaysFalse : String → String → String → Bool := fun _ _ _ => false

/-- A one-table page whose only data row is `cellsW`. -/
def tablesW : List (Nat × List (List String)) := [(0, [["hdr"], cellsW])]

/-- Witness for C7: with the all-rejecting predicate, the concrete row
contributes no events and the concrete page yields the fixed-header empty
calendar. -/
theorem c7_witness :
    alwaysFalse (pyStrip (cellsW.getD 0 "")) (pyStrip (cellsW.getD 1 ""))
      (pyStrip (cellsW.getD 2 "")) = false ∧
    (∀ a b c, alwaysFalse a b c = false) ∧
    (∀ t ∈ tablesW, ∀ r ∈ t.2.drop 1, r.length = 13) ∧
    parse_table_row cellsW 3 7 (some alwaysFalse) = .ok [] ∧
    create_ics tablesW 7 (some alwaysFalse)
      = .ok { prodid := "-//UNMC Timetable//EN", version := "2.0", events := [] } := by
  refine ⟨rfl, fun a b c => rfl, by decide, ?_, ?_⟩
  · exact (c7_exclusion_predicate alwaysFalse tablesW 7).1 cellsW 3 rfl
  · exact (c7_exclusion_predicate alwaysFalse tablesW 7).2 (fun a b c => rfl) (by decide)

/-- A 13-cell row whose week and time texts are unparseable garbage. -/
def cellsJunk : List String :=
  ["AB1", "Maths", "Lecture", "30", "", "junk", "junk", "", "Room 1", "",
   "", "Dr X", "1-2-3, x"]

/-- Witness for C9: the rejected garbage row yields zero events without
raising, and the shape check still aborts a malformed table under the
same all-rejecting predicate. -/
theorem c9_witness :
    alwaysFalse (pyStrip (cellsJunk.getD 0 "")) (pyStrip (cellsJunk.getD 1 ""))
      (pyStrip (cellsJunk.getD 2 "")) = false ∧
    (∃ r ∈ rowsW.drop 1, r.length ≠ 13) ∧
    parse_table_row cellsJunk 0 0 (some alwaysFalse) = .ok [] ∧
    (∃ e, parse_day_table rowsW 0 0 (some alwaysFalse) = .error e) := by
  refine ⟨rfl, by decide, ?_, ?_⟩
  · exact (c9_filter_short_circuits_before_parsing cellsJunk 0 0 alwaysFalse rowsW).1 rfl
  · exact (c9_filter_short_circuits_before_parsing cellsJunk 0 0 alwaysFalse rowsW).2 (by decide)

/-- Witness for C10 at the concrete row `cellsW` and its single event. -/
theorem c10_witness :
    parse_table_row cellsW 0 (rataDie 2024 9 2) none = .ok evsW ∧
    ((evsW.getD 0 default).description
        = "Module: " ++ pyStrip (cellsW.getD 0 "") ++ "\nStaff: "
          ++ pyStrip (cellsW.getD 11 "") ++ "\nSize: " ++ pyStrip (cellsW.getD 3 "") ∧
     (evsW.getD 0 default).summary
        = pyStrip (cellsW.getD 1 "") ++ " (" ++ pyStrip (cellsW.getD 2 "") ++ ")") ∧
    old_description "AB1" "Dr X" = "Module: AB1\nStaff: Dr X\nAcademic Year: 2024/25" := by
  refine ⟨by decide, ?_, ?_⟩
  · exact (c10_description_and_summary cellsW 0 (rataDie 2024 9 2) none evsW
      (by decide)).1 (evsW.getD 0 default) (by decide)
  · exact ((c10_description_and_summary cellsW 0 (rataDie 2024 9 2) none evsW
      (by decide)).2.1 "AB1" "Dr X").trans (by decide)

end UNMC
